import Mathlib

/-!
Shallow embedding of the SkygearIO/k8s-domain-controller reconciler
(`controllers/customdomainregistration_controller.go`).

The controller file itself is embedded faithfully; the small helper
packages it calls (`util/slice`, `util/condition`, `util/finalizer`,
`verification`) are not part of the given sources, so they are modelled
from the specification, each marked `Modelled from the spec:`.

Store interactions (get / create / patch / status-update) are modelled
by explicit state passing over a list of stored domains, with fault
injection flags standing for the failure outcomes the real store can
produce (a non-not-found read error, a rejected conditional patch, a
failed write).
-/

namespace DomainController

/-- Errors a store operation or collaborator can produce.  `notFound` is the
distinguished error recognised by `apierrors.IsNotFound`; `conflict` is a
conditional patch rejected because of a concurrent modification;
`storeError` is any other read/write failure; `namingError` is the DNS
naming collaborator's failure. -/
inductive Err where
  | notFound
  | conflict
  | storeError
  | namingError
deriving DecidableEq, Repr

/-- The human-readable message of an error, as `err.Error()` would give. -/
def errMessage : Err → String
  | .notFound => "not found"
  | .conflict => "conflict"
  | .storeError => "store error"
  | .namingError => "naming error"

/-- The `corev1.ObjectReference` restricted to the fields the controller sets. -/
structure ObjectReference where
  apiVersion : String
  kind : String
  name : String
  ns : String
  uid : String
deriving DecidableEq, Repr

/-- Condition status, `metav1.ConditionStatus`. -/
inductive ConditionStatus where
  | condTrue
  | condFalse
  | condUnknown
deriving DecidableEq, Repr

/-- An `api.Condition`: a typed, timestamped status fact. -/
structure Condition where
  type : String
  status : ConditionStatus
  lastTransitionTime : Nat
  message : String
deriving DecidableEq, Repr

/-- A DNS record (`domainv1beta1.CustomDomainDNSRecord`). -/
structure DNSRecord where
  name : String
  recType : String
  value : String
deriving DecidableEq, Repr

/-- A `domainv1beta1.CustomDomain`: name is the hostname (cluster-scoped);
`registrations` is `spec.registrations`; `verificationKey` is
`spec.verificationKey`; `dnsRecords` is `status.loadBalancer.dnsRecords`. -/
structure CustomDomain where
  name : String
  registrations : List ObjectReference
  verificationKey : Option String
  dnsRecords : List DNSRecord
deriving DecidableEq, Repr

/-- The `status` of a `CustomDomainRegistration`. -/
structure RegStatus where
  conditions : List Condition
  dnsRecords : List DNSRecord
deriving DecidableEq, Repr

/-- A `domainv1beta1.CustomDomainRegistration`, restricted to the fields the
controller reads: identity, deletion timestamp, finalizers, status. -/
structure Registration where
  apiVersion : String
  kind : String
  name : String
  ns : String
  uid : String
  deletionTimestamp : Option Nat
  finalizers : List String
  status : RegStatus
deriving DecidableEq, Repr

/-- Condition type `domainv1beta1.RegistrationVerified`. -/
def registrationVerified : String := "Verified"

/-- Condition type `domainv1beta1.RegistrationAccepted`. -/
def registrationAccepted : String := "Accepted"

/-- The finalizer marker `domain.DomainFinalizer` (its exact string value is
outside the given sources; only its identity matters). -/
def domainFinalizer : String := "domain.skygear.io"

/-- The object reference the controller builds for a registration
(`regRef` in `registerDomain`). -/
def refOf (reg : Registration) : ObjectReference :=
  { apiVersion := reg.apiVersion
    kind := reg.kind
    name := reg.name
    ns := reg.ns
    uid := reg.uid }

/-- Modelled from the spec: `util/slice` is not in the given sources.
Whether a stored reference matches a registration; §4.2: membership
equality is by the (namespace, name, UID) tuple. -/
def refMatches (r : ObjectReference) (reg : Registration) : Bool :=
  r.ns == reg.ns && r.name == reg.name && r.uid == reg.uid

/-- Modelled from the spec: `slice.ContainsObjectReference`; §4.2
`contains(set, ref)`: true iff some element matches on
(namespace, name, UID). -/
def ContainsObjectReference (refs : List ObjectReference) (reg : Registration) : Bool :=
  refs.any (fun r => refMatches r reg)

/-- Modelled from the spec: `slice.RemoveObjectReference`; §4.2
`remove(set, ref)`: all matching elements are removed, the others keep
their order. -/
def RemoveObjectReference (refs : List ObjectReference) (reg : Registration) : List ObjectReference :=
  refs.filter (fun r => !(refMatches r reg))

/-- Modelled from the spec: `condition.ToStatus`; §4.6 `status-of(b)`
maps a boolean to the condition status `True`/`False`. -/
def ToStatus (b : Bool) : ConditionStatus :=
  if b then .condTrue else .condFalse

/-- Modelled from the spec: `condition.MergeFrom`; §4.1: each new condition
keeps the previous `lastTransitionTime` when a previous condition of the
same type had the same status, and is restamped with the reconciling
instant otherwise.  Output order is the order of the new conditions. -/
def MergeFrom (newConds prevConds : List Condition) (now : Nat) : List Condition :=
  match newConds with
  | [] => []
  | c :: rest =>
      let merged :=
        match prevConds.find? (fun p => p.type == c.type) with
        | some p =>
            if p.status = c.status then
              { c with lastTransitionTime := p.lastTransitionTime }
            else
              { c with lastTransitionTime := now }
        | none => { c with lastTransitionTime := now }
      merged :: MergeFrom rest prevConds now

/-- Look a domain up by name in the store (`r.Get` on a `CustomDomain`). -/
def getDomain (ds : List CustomDomain) (n : String) : Option CustomDomain :=
  ds.find? (fun d => d.name == n)

/-- Store a mutated domain under its name (a successful `r.Patch`). -/
def putDomain (ds : List CustomDomain) (d : CustomDomain) : List CustomDomain :=
  ds.map (fun d0 => if d0.name == d.name then d else d0)

/-- Append a freshly created domain to the store (a successful `r.Create`). -/
def createDomain (ds : List CustomDomain) (d : CustomDomain) : List CustomDomain :=
  ds ++ [d]

/-- Failure outcomes injected into one `registerDomain` call: a non-not-found
`Get` error, a `Create` error, and a `Patch` error (`some .conflict` models a
conditional patch rejected by a concurrent modification). -/
structure RegisterFaults where
  getFault : Bool
  createFault : Bool
  patchFault : Option Err
deriving DecidableEq, Repr

/-- Function `registerDomain`: load the domain named after the registration; if absent,
create it with the single reference; if present and the reference is absent,
append it via a conditional patch; any error is returned to the caller. -/
def registerDomain (f : RegisterFaults) (reg : Registration) (ds : List CustomDomain) :
    Except Err Unit × List CustomDomain :=
  if f.getFault then
    (.error .storeError, ds)
  else
    match getDomain ds reg.name with
    | none =>
        if f.createFault then
          (.error .storeError, ds)
        else
          let d : CustomDomain :=
            { name := reg.name
              registrations := [refOf reg]
              verificationKey := none
              dnsRecords := [] }
          (.ok (), createDomain ds d)
    | some d =>
        if ContainsObjectReference d.registrations reg then
          (.ok (), ds)
        else
          match f.patchFault with
          | some e => (.error e, ds)
          | none =>
              (.ok (), putDomain ds { d with registrations := d.registrations ++ [refOf reg] })

/-- Failure outcomes injected into one `unregisterDomain` call. -/
structure UnregisterFaults where
  getFault : Bool
  patchFault : Option Err
deriving DecidableEq, Repr

/-- Function `unregisterDomain`: load the domain; not-found reports
`stillRegistered = false` with no error; if the reference is present, patch
it out; the returned boolean re-checks membership on the (locally mutated)
registration list. -/
def unregisterDomain (f : UnregisterFaults) (reg : Registration) (ds : List CustomDomain) :
    Except Err Bool × List CustomDomain :=
  if f.getFault then
    (.error .storeError, ds)
  else
    match getDomain ds reg.name with
    | none => (.ok false, ds)
    | some d =>
        if ContainsObjectReference d.registrations reg then
          match f.patchFault with
          | some e => (.error e, ds)
          | none =>
              let d' := { d with registrations := RemoveObjectReference d.registrations reg }
              (.ok (ContainsObjectReference d'.registrations reg), putDomain ds d')
        else
          (.ok (ContainsObjectReference d.registrations reg), ds)

/-- Scan the registration's conditions for the first `Verified` condition and
report whether its status is `True` (the `currentVerified` loop in
`verifyDomainIfNeeded`; absent means not verified). -/
def currentVerifiedOf (conds : List Condition) : Bool :=
  match conds.find? (fun c => c.type == registrationVerified) with
  | some c => c.status = .condTrue
  | none => false

/-- Function `verifyDomainIfNeeded`: load the domain (any error, not-found included,
propagates); absent `verificationKey` reports unverified with no error and
leaves the registration untouched; otherwise derive the token and record
name, store the combined DNS record list on the registration's status, and
report the sticky previously-`Verified` flag.  `tokGen` is the injected
`VerificationTokenGenerator`; `mkName` models `verification.MakeDNSRecordName`
(not in the given sources, a collaborator per §6: `none` is a `NamingError`). -/
def verifyDomainIfNeeded (tokGen : String → String → String)
    (mkName : String → Option String) (getFault : Bool)
    (ds : List CustomDomain) (reg : Registration) :
    Except Err (Bool × Registration) :=
  if getFault then
    .error .storeError
  else
    match getDomain ds reg.name with
    | none => .error .notFound
    | some d =>
        match d.verificationKey with
        | none => .ok (false, reg)
        | some key =>
            let token := tokGen key reg.uid
            match mkName d.name with
            | none => .error .namingError
            | some recName =>
                let records := d.dnsRecords ++ [⟨recName, "TXT", token⟩]
                let reg' := { reg with status := { reg.status with dnsRecords := records } }
                .ok (currentVerifiedOf reg.status.conditions, reg')

/-- Modelled from the spec: `finalizer.Ensure` (`util/finalizer` is not in
the given sources); §4.3: add the marker and persist when absent, signalling
"added"; signal "not added" when present.  The fault flag is the persisting
write failing. -/
def finalizerEnsure (fault : Bool) (reg : Registration) (marker : String) :
    Except Err (Bool × Registration) :=
  if reg.finalizers.contains marker then
    .ok (false, reg)
  else
    if fault then
      .error .storeError
    else
      .ok (true, { reg with finalizers := reg.finalizers ++ [marker] })

/-- Modelled from the spec: `finalizer.Remove`; §4.3: drop the marker and
persist. -/
def finalizerRemove (fault : Bool) (reg : Registration) (marker : String) :
    Except Err Registration :=
  if fault then
    .error .storeError
  else
    .ok { reg with finalizers := reg.finalizers.filter (fun m => m ≠ marker) }

/-- The store state one reconcile pass acts on: the stored registration
object and the stored domains. -/
structure State where
  reg : Registration
  domains : List CustomDomain
deriving DecidableEq, Repr

/-- All failure outcomes injectable into one reconcile pass, one flag per
store interaction the pass can perform. -/
structure Faults where
  initGetFault : Bool
  ensureFault : Bool
  registerGetFault : Bool
  createFault : Bool
  registerPatchFault : Option Err
  unregisterGetFault : Bool
  unregisterPatchFault : Option Err
  verifyGetFault : Bool
  statusUpdateFault : Bool
  removeFault : Bool
deriving DecidableEq, Repr

/-- The fault-free pass. -/
def noFaults : Faults :=
  { initGetFault := false
    ensureFault := false
    registerGetFault := false
    createFault := false
    registerPatchFault := none
    unregisterGetFault := false
    unregisterPatchFault := none
    verifyGetFault := false
    statusUpdateFault := false
    removeFault := false }

/-- Tail of `Reconcile` shared by both branches: merge the produced
conditions into the previous set, persist the status, and, when finalization
was deemed safe, remove the finalizer.  Returns the requeue flag (always
false here) or the aborting error, together with the final store state. -/
def finishPass (f : Faults) (now : Nat) (domains : List CustomDomain)
    (stored : Registration) (reg : Registration) (conds : List Condition)
    (doFinalize : Bool) : Except Err Bool × State :=
  let merged := MergeFrom conds reg.status.conditions now
  let reg' := { reg with status := { reg.status with conditions := merged } }
  if f.statusUpdateFault then
    (.error .storeError, { reg := stored, domains := domains })
  else
    if doFinalize then
      match finalizerRemove f.removeFault reg' domainFinalizer with
      | .error e => (.error e, { reg := reg', domains := domains })
      | .ok reg'' => (.ok false, { reg := reg'', domains := domains })
    else
      (.ok false, { reg := reg', domains := domains })

/-- One `Reconcile` pass over a stored registration.  Normal branch: ensure
the finalizer (requeue if just added), register, verify (an error becomes
`Verified = Unknown` with the message); deletion branch: unregister (an
error becomes `Accepted = Unknown` with the message and blocks
finalization, success records `Accepted = status-of(stillRegistered)` and
allows finalization only when no longer registered); both branches then
merge and persist status and optionally finalize. -/
def reconcile (tokGen : String → String → String) (mkName : String → Option String)
    (f : Faults) (now : Nat) (st : State) : Except Err Bool × State :=
  if f.initGetFault then
    (.error .storeError, st)
  else
    let reg := st.reg
    match reg.deletionTimestamp with
    | none =>
        match finalizerEnsure f.ensureFault reg domainFinalizer with
        | .error e => (.error e, st)
        | .ok (added, reg1) =>
            let st1 : State := { reg := reg1, domains := st.domains }
            if added then
              (.ok true, st1)
            else
              match registerDomain ⟨f.registerGetFault, f.createFault, f.registerPatchFault⟩ reg1 st1.domains with
              | (.error e, ds) => (.error e, { reg := reg1, domains := ds })
              | (.ok _, ds) =>
                  match verifyDomainIfNeeded tokGen mkName f.verifyGetFault ds reg1 with
                  | .error e =>
                      let conds : List Condition :=
                        [⟨registrationVerified, .condUnknown, 0, errMessage e⟩]
                      finishPass f now ds reg1 reg1 conds false
                  | .ok (verified, reg2) =>
                      let conds : List Condition :=
                        [⟨registrationVerified, ToStatus verified, 0, ""⟩]
                      finishPass f now ds reg1 reg2 conds false
    | some _ =>
        match unregisterDomain ⟨f.unregisterGetFault, f.unregisterPatchFault⟩ reg st.domains with
        | (.error e, ds) =>
            let conds : List Condition :=
              [⟨registrationAccepted, .condUnknown, 0, errMessage e⟩]
            finishPass f now ds reg reg conds false
        | (.ok stillReg, ds) =>
            let conds : List Condition :=
              [⟨registrationAccepted, ToStatus stillReg, 0, ""⟩]
            finishPass f now ds reg reg conds (!stillReg)

/-! ### Concrete fixtures used by witnesses and counterexamples -/

/-- A concrete token generator (the injected collaborator). -/
def tokCat : String → String → String := fun k n => k ++ "/" ++ n

/-- A concrete DNS naming rule that always succeeds. -/
def nameOk : String → Option String := fun h => some ("_verify." ++ h)

/-- A live registration for hostname `acme.example`. -/
def sampleReg : Registration :=
  { apiVersion := "domain.skygear.io/v1beta1"
    kind := "CustomDomainRegistration"
    name := "acme.example"
    ns := "ns"
    uid := "u1"
    deletionTimestamp := none
    finalizers := [domainFinalizer]
    status := ⟨[], []⟩ }

/-- Fixture `sampleReg` marked for deletion. -/
def sampleRegDel : Registration :=
  { sampleReg with deletionTimestamp := some 3 }

/-- A reference belonging to a different registration. -/
def otherRef : ObjectReference :=
  { apiVersion := "domain.skygear.io/v1beta1"
    kind := "CustomDomainRegistration"
    name := "acme.example"
    ns := "ns2"
    uid := "u2" }

/-- A stored domain for `acme.example` holding `sampleReg`, no key. -/
def domWithSample : CustomDomain :=
  ⟨"acme.example", [refOf sampleReg], none, []⟩

/-- A stored domain for `acme.example` holding only another registration,
with a verification key configured. -/
def domOther : CustomDomain :=
  ⟨"acme.example", [otherRef], some "k", []⟩

/-! ### Helper lemmas -/

/-- Removing a registration's references leaves a list that no longer
contains the registration. -/
theorem contains_remove_self (l : List ObjectReference) (reg : Registration) :
    ContainsObjectReference (RemoveObjectReference l reg) reg = false := by
  simp only [ContainsObjectReference, RemoveObjectReference, List.any_eq_false]
  intro x hx
  rw [List.mem_filter] at hx
  simpa using hx.2

/-- A fault-free `registerDomain` call always succeeds. -/
theorem registerDomain_noFaults_ok (reg : Registration) (ds : List CustomDomain) :
    ∃ ds', registerDomain ⟨false, false, none⟩ reg ds = (.ok (), ds') := by
  unfold registerDomain
  cases hget : getDomain ds reg.name with
  | none =>
      exact ⟨createDomain ds ⟨reg.name, [refOf reg], none, []⟩, by simp [hget]⟩
  | some d =>
      by_cases hmem : ContainsObjectReference d.registrations reg
      · exact ⟨ds, by simp [hget, hmem]⟩
      · exact ⟨putDomain ds { d with registrations := d.registrations ++ [refOf reg] },
          by simp [hget, hmem]⟩

/-- A fault-free `unregisterDomain` call always succeeds, and reports
`stillRegistered = false`. -/
theorem unregisterDomain_noFaults_ok (reg : Registration) (ds : List CustomDomain) :
    ∃ ds', unregisterDomain ⟨false, none⟩ reg ds = (.ok false, ds') := by
  unfold unregisterDomain
  cases hget : getDomain ds reg.name with
  | none => exact ⟨ds, by simp [hget]⟩
  | some d =>
      by_cases hmem : ContainsObjectReference d.registrations reg
      · exact ⟨putDomain ds { d with registrations := RemoveObjectReference d.registrations reg },
          by simp [hget, hmem, contains_remove_self]⟩
      · exact ⟨ds, by simp [hget, hmem]⟩

/-! ### C6: verify with no verification key -/

/-- C6: for every verify call where the loaded domain's
`spec.verificationKey` is absent, verify returns `verified = false` with no
error and leaves the registration (in particular `status.dnsRecords`)
unchanged. -/
theorem verify_no_key_reports_false (tokGen : String → String → String)
    (mkName : String → Option String) (ds : List CustomDomain)
    (reg : Registration) (d : CustomDomain)
    (hget : getDomain ds reg.name = some d)
    (hkey : d.verificationKey = none) :
    verifyDomainIfNeeded tokGen mkName false ds reg = .ok (false, reg) := by
  simp [verifyDomainIfNeeded, hget, hkey]

/-- C6 witness: the hypotheses hold of `domWithSample` and the conclusion
follows by the theorem. -/
theorem verify_no_key_reports_false_witness :
    getDomain [domWithSample] sampleReg.name = some domWithSample ∧
    domWithSample.verificationKey = none ∧
    verifyDomainIfNeeded tokCat nameOk false [domWithSample] sampleReg = .ok (false, sampleReg) :=
  ⟨by decide, by decide,
    verify_no_key_reports_false tokCat nameOk [domWithSample] sampleReg domWithSample
      (by decide) (by decide)⟩

/-! ### C7: register is idempotent -/

/-- C7: for every registration already referenced in the stored domain's
registration list, `registerDomain` is a no-op: it succeeds and the whole
domain store (hence the registration list, its length and order) is
unchanged, and no patch is issued (any injected patch or create fault is
never reached). -/
theorem register_idempotent (f : RegisterFaults) (reg : Registration)
    (ds : List CustomDomain) (d : CustomDomain)
    (hf : f.getFault = false)
    (hget : getDomain ds reg.name = some d)
    (hmem : ContainsObjectReference d.registrations reg = true) :
    registerDomain f reg ds = (.ok (), ds) := by
  simp [registerDomain, hf, hget, hmem]

/-- C7 witness: registering `sampleReg` into a store already containing its
reference leaves the store unchanged, even with patch/create faults armed
(showing no write is attempted). -/
theorem register_idempotent_witness :
    ContainsObjectReference domWithSample.registrations sampleReg = true ∧
    registerDomain ⟨false, true, some .conflict⟩ sampleReg [domWithSample] = (.ok (), [domWithSample]) :=
  ⟨by decide,
    register_idempotent ⟨false, true, some .conflict⟩ sampleReg [domWithSample] domWithSample
      rfl (by decide) (by decide)⟩

/-! ### C8: unregister of an absent reference -/

/-- C8: whenever the domain does not exist, or exists without a matching
reference, `unregisterDomain` returns `stillRegistered = false` with no
error and leaves the domain store (hence the registration list) unchanged;
not-found is never reported as an error. -/
theorem unregister_absent_noop (f : UnregisterFaults) (reg : Registration)
    (ds : List CustomDomain)
    (hf : f.getFault = false)
    (habsent : ∀ d, getDomain ds reg.name = some d →
      ContainsObjectReference d.registrations reg = false) :
    unregisterDomain f reg ds = (.ok false, ds) := by
  unfold unregisterDomain
  cases hget : getDomain ds reg.name with
  | none => simp [hf, hget]
  | some d =>
      have hmem := habsent d hget
      simp [hf, hget, hmem]

/-- C8 witness: unregistering `sampleReg` from a store whose only domain for
the hostname holds a different reference returns `(false, no error)` and
leaves the store unchanged; a second application covers the not-found case. -/
theorem unregister_absent_noop_witness :
    (∀ d, getDomain [domOther] sampleReg.name = some d →
      ContainsObjectReference d.registrations sampleReg = false) ∧
    unregisterDomain ⟨false, some .conflict⟩ sampleReg [domOther] = (.ok false, [domOther]) ∧
    unregisterDomain ⟨false, none⟩ sampleReg [] = (.ok false, []) :=
  ⟨by decide,
    unregister_absent_noop ⟨false, some .conflict⟩ sampleReg [domOther] rfl (by decide),
    unregister_absent_noop ⟨false, none⟩ sampleReg [] rfl (by decide)⟩

/-! ### C5: verification is sticky once true -/

/-- Under the data-model invariant that conditions are keyed by type (at
most one condition per type), the first-`Verified`-condition scan of
`verifyDomainIfNeeded` reports exactly whether a `Verified` condition with
status `True` is present. -/
theorem currentVerifiedOf_iff (conds : List Condition)
    (huniq : ∀ p ∈ conds, ∀ q ∈ conds, p.type = q.type → p = q) :
    currentVerifiedOf conds = true ↔
      ∃ c ∈ conds, c.type = registrationVerified ∧ c.status = .condTrue := by
  unfold currentVerifiedOf
  cases hfind : conds.find? (fun c => c.type == registrationVerified) with
  | none =>
      simp only [Bool.false_eq_true, false_iff]
      rintro ⟨c, hc, hty, _⟩
      have := List.find?_eq_none.mp hfind c hc
      simp [hty] at this
  | some c =>
      have hmem := List.mem_of_find?_eq_some hfind
      have hty : c.type = registrationVerified := by
        have := List.find?_some hfind
        simpa using this
      simp only [decide_eq_true_eq]
      constructor
      · intro hst
        exact ⟨c, hmem, hty, hst⟩
      · rintro ⟨c', hc', hty', hst'⟩
        have : c' = c := huniq c' hc' c hmem (by rw [hty, hty'])
        rw [← this]; exact hst'

/-- C5: with the domain loaded, a verification key configured and the
naming collaborator succeeding, `verifyDomainIfNeeded` returns no error and
reports `verified = true` exactly when the registration's persisted
conditions hold a `Verified` condition with status `True` (sticky once
true; otherwise unconditionally false). -/
theorem verify_sticky_once_true (tokGen : String → String → String)
    (mkName : String → Option String) (ds : List CustomDomain)
    (reg : Registration) (d : CustomDomain) (key recName : String)
    (hget : getDomain ds reg.name = some d)
    (hkey : d.verificationKey = some key)
    (hname : mkName d.name = some recName)
    (huniq : ∀ p ∈ reg.status.conditions, ∀ q ∈ reg.status.conditions,
      p.type = q.type → p = q) :
    ∃ b, verifyDomainIfNeeded tokGen mkName false ds reg =
        .ok (b, { reg with status := { reg.status with
          dnsRecords := d.dnsRecords ++ [⟨recName, "TXT", tokGen key reg.uid⟩] } }) ∧
      (b = true ↔ ∃ c ∈ reg.status.conditions,
        c.type = registrationVerified ∧ c.status = .condTrue) := by
  refine ⟨currentVerifiedOf reg.status.conditions, ?_, currentVerifiedOf_iff _ huniq⟩
  simp [verifyDomainIfNeeded, hget, hkey, hname]

/-- A registration whose persisted `Verified` condition is `True`. -/
def regVerified : Registration :=
  { sampleReg with status := ⟨[⟨registrationVerified, .condTrue, 2, ""⟩], []⟩ }

/-- C5 witness: for `regVerified` against a domain with key `"k"` the
theorem applies and the reported flag is decidably tied to the persisted
`Verified = True` condition. -/
theorem verify_sticky_once_true_witness :
    getDomain [domOther] regVerified.name = some domOther ∧
    domOther.verificationKey = some "k" ∧
    nameOk domOther.name = some "_verify.acme.example" ∧
    ∃ b, verifyDomainIfNeeded tokCat nameOk false [domOther] regVerified =
        .ok (b, { regVerified with status := { regVerified.status with
          dnsRecords := domOther.dnsRecords ++ [⟨"_verify.acme.example", "TXT", tokCat "k" regVerified.uid⟩] } }) ∧
      (b = true ↔ ∃ c ∈ regVerified.status.conditions,
        c.type = registrationVerified ∧ c.status = .condTrue) :=
  ⟨by decide, by decide, by decide,
    verify_sticky_once_true tokCat nameOk [domOther] regVerified domOther "k"
      "_verify.acme.example" (by decide) (by decide) (by decide) (by decide)⟩

/-! ### C10: a successful unregister never reports still-registered -/

/-- The success value of `unregisterDomain` is always `false`: the post-patch
membership re-check runs against the locally mutated list. -/
theorem unregisterDomain_ok_false (uf : UnregisterFaults) (reg : Registration)
    (ds : List CustomDomain) (b : Bool) (ds' : List CustomDomain)
    (h : unregisterDomain uf reg ds = (.ok b, ds')) : b = false := by
  by_cases hgf : uf.getFault = true
  · simp [unregisterDomain, hgf] at h
  · rw [Bool.not_eq_true] at hgf
    cases hget : getDomain ds reg.name with
    | none =>
        simp [unregisterDomain, hgf, hget] at h
        exact h.1
    | some d =>
        by_cases hmem : ContainsObjectReference d.registrations reg = true
        · cases hpf : uf.patchFault with
          | some e => simp [unregisterDomain, hgf, hget, hmem, hpf] at h
          | none =>
              simp [unregisterDomain, hgf, hget, hmem, hpf, contains_remove_self] at h
              exact h.1
        · rw [Bool.not_eq_true] at hmem
          simp [unregisterDomain, hgf, hget, hmem] at h
          exact h.1

/-- C10: whenever `unregisterDomain` returns without error the reported
`stillRegistered` is `false`; consequently, in the deletion branch every
error-free unregister leads to a persisted `Accepted = False` condition and
removal of the finalizer (statuses write and finalizer write succeeding). -/
theorem unregister_success_reports_unregistered
    (tokGen : String → String → String) (mkName : String → Option String)
    (f : Faults) (now t : Nat) (st : State)
    (hdel : st.reg.deletionTimestamp = some t)
    (hinit : f.initGetFault = false)
    (hsu : f.statusUpdateFault = false)
    (hrm : f.removeFault = false) :
    (∀ (uf : UnregisterFaults) (reg : Registration) (ds : List CustomDomain)
      (b : Bool) (ds' : List CustomDomain),
      unregisterDomain uf reg ds = (.ok b, ds') → b = false) ∧
    (∀ (b : Bool) (ds' : List CustomDomain),
      unregisterDomain ⟨f.unregisterGetFault, f.unregisterPatchFault⟩ st.reg st.domains = (.ok b, ds') →
      (reconcile tokGen mkName f now st).2.reg.status.conditions.map
          (fun c => (c.type, c.status, c.message)) =
        [(registrationAccepted, ConditionStatus.condFalse, "")] ∧
      domainFinalizer ∉ (reconcile tokGen mkName f now st).2.reg.finalizers) := by
  refine ⟨unregisterDomain_ok_false, ?_⟩
  intro b ds' hun
  have hb : b = false := unregisterDomain_ok_false _ _ _ _ _ hun
  subst hb
  rw [reconcile]
  simp only [hinit, Bool.false_eq_true, if_false, hdel, hun]
  rw [finishPass]
  simp only [hsu, Bool.false_eq_true, if_false, Bool.not_false, if_true]
  rw [finalizerRemove]
  simp only [hrm, Bool.false_eq_true, if_false]
  constructor
  · rw [MergeFrom]
    cases hfind : st.reg.status.conditions.find?
        (fun p => p.type == registrationAccepted) with
    | none => simp [MergeFrom, ToStatus]
    | some p =>
        by_cases hst : p.status = ConditionStatus.condFalse <;>
          simp [MergeFrom, ToStatus, hfind, hst]
  · intro hmem
    rw [List.mem_filter] at hmem
    simp at hmem

/-- The deletion-branch state: `sampleRegDel` with its domain still holding
its reference. -/
def stDel : State := ⟨sampleRegDel, [domWithSample]⟩

/-- C10 witness: the fault-free deletion pass over `stDel` persists
`Accepted = False` and removes the finalizer. -/
theorem unregister_success_reports_unregistered_witness :
    stDel.reg.deletionTimestamp = some 3 ∧
    unregisterDomain ⟨noFaults.unregisterGetFault, noFaults.unregisterPatchFault⟩ stDel.reg stDel.domains =
      (.ok false, [⟨"acme.example", [], none, []⟩]) ∧
    ((reconcile tokCat nameOk noFaults 7 stDel).2.reg.status.conditions.map
        (fun c => (c.type, c.status, c.message)) =
      [(registrationAccepted, ConditionStatus.condFalse, "")] ∧
    domainFinalizer ∉ (reconcile tokCat nameOk noFaults 7 stDel).2.reg.finalizers) :=
  ⟨by decide, by rfl,
    (unregister_success_reports_unregistered tokCat nameOk noFaults 7 3 stDel
        (by decide) (by decide) (by decide) (by decide)).2 false
      [⟨"acme.example", [], none, []⟩] (by rfl)⟩

/-! ### C2: the deletion branch's condition and finalizer protocol -/

/-- C2: in every deletion-branch pass, an unregister error is recorded as
`Accepted = Unknown` carrying the error message with the finalizer left in
place, while unregister success records `Accepted = status-of(stillRegistered)`
and keeps the finalizer whenever `stillRegistered = true` — the finalizer is
never removed while the registration is still bound. -/
theorem deletion_branch_protocol
    (tokGen : String → String → String) (mkName : String → Option String)
    (f : Faults) (now t : Nat) (st : State)
    (hdel : st.reg.deletionTimestamp = some t)
    (hinit : f.initGetFault = false) :
    (∀ (e : Err) (ds' : List CustomDomain),
      unregisterDomain ⟨f.unregisterGetFault, f.unregisterPatchFault⟩ st.reg st.domains = (.error e, ds') →
      (reconcile tokGen mkName f now st).2.reg.finalizers = st.reg.finalizers ∧
      (f.statusUpdateFault = false →
        (reconcile tokGen mkName f now st).2.reg.status.conditions.map
            (fun c => (c.type, c.status, c.message)) =
          [(registrationAccepted, ConditionStatus.condUnknown, errMessage e)])) ∧
    (∀ (b : Bool) (ds' : List CustomDomain),
      unregisterDomain ⟨f.unregisterGetFault, f.unregisterPatchFault⟩ st.reg st.domains = (.ok b, ds') →
      (f.statusUpdateFault = false →
        (reconcile tokGen mkName f now st).2.reg.status.conditions.map
            (fun c => (c.type, c.status, c.message)) =
          [(registrationAccepted, ToStatus b, "")]) ∧
      (b = true → (reconcile tokGen mkName f now st).2.reg.finalizers = st.reg.finalizers)) := by
  constructor
  · intro e ds' hun
    rw [reconcile]
    simp only [hinit, Bool.false_eq_true, if_false, hdel, hun]
    rw [finishPass]
    by_cases hsu : f.statusUpdateFault = true
    · simp [hsu]
    · rw [Bool.not_eq_true] at hsu
      simp only [hsu, Bool.false_eq_true, if_false]
      refine ⟨by trivial, fun _ => ?_⟩
      rw [MergeFrom]
      cases hfind : st.reg.status.conditions.find?
          (fun p => p.type == registrationAccepted) with
      | none => simp [MergeFrom]
      | some p =>
          by_cases hst : p.status = ConditionStatus.condUnknown <;>
            simp [MergeFrom, hfind, hst]
  · intro b ds' hun
    have hb : b = false := unregisterDomain_ok_false _ _ _ _ _ hun
    subst hb
    rw [reconcile]
    simp only [hinit, Bool.false_eq_true, if_false, hdel, hun]
    rw [finishPass]
    by_cases hsu : f.statusUpdateFault = true
    · simp [hsu]
    · rw [Bool.not_eq_true] at hsu
      simp only [hsu, Bool.false_eq_true, if_false, Bool.not_false, if_true]
      refine ⟨fun _ => ?_, by intro h; cases h⟩
      rw [finalizerRemove]
      by_cases hrm : f.removeFault = true
      · simp only [hrm, if_true]
        rw [MergeFrom]
        cases hfind : st.reg.status.conditions.find?
            (fun p => p.type == registrationAccepted) with
        | none => simp [MergeFrom, ToStatus]
        | some p =>
            by_cases hst : p.status = ConditionStatus.condFalse <;>
              simp [MergeFrom, ToStatus, hfind, hst]
      · rw [Bool.not_eq_true] at hrm
        simp only [hrm, Bool.false_eq_true, if_false]
        rw [MergeFrom]
        cases hfind : st.reg.status.conditions.find?
            (fun p => p.type == registrationAccepted) with
        | none => simp [MergeFrom, ToStatus]
        | some p =>
            by_cases hst : p.status = ConditionStatus.condFalse <;>
              simp [MergeFrom, ToStatus, hfind, hst]

/-- Faults injecting a store error into the unregister read. -/
def fUnregGet : Faults := { noFaults with unregisterGetFault := true }

/-- C2 witness: over `stDel` with an unregister read failure, the pass
keeps the finalizer and records `Accepted = Unknown` with the store-error
message. -/
theorem deletion_branch_protocol_witness :
    stDel.reg.deletionTimestamp = some 3 ∧
    fUnregGet.initGetFault = false ∧
    unregisterDomain ⟨fUnregGet.unregisterGetFault, fUnregGet.unregisterPatchFault⟩ stDel.reg stDel.domains =
      (.error .storeError, stDel.domains) ∧
    ((reconcile tokCat nameOk fUnregGet 7 stDel).2.reg.finalizers = stDel.reg.finalizers ∧
     (reconcile tokCat nameOk fUnregGet 7 stDel).2.reg.status.conditions.map
         (fun c => (c.type, c.status, c.message)) =
       [(registrationAccepted, ConditionStatus.condUnknown, errMessage .storeError)]) := by
  refine ⟨by decide, by decide, by rfl, ?_⟩
  have h := (deletion_branch_protocol tokCat nameOk fUnregGet 7 3 stDel
      (by decide) (by decide)).1 .storeError stDel.domains (by rfl)
  exact ⟨h.1, h.2 (by decide)⟩

/-! ### C9: condition merge and transition times -/

/-- Merging a single fresh condition preserves its type, status and
message, whatever the previous set held. -/
theorem mergeFrom_single_map (c : Condition) (prev : List Condition) (now : Nat) :
    (MergeFrom [c] prev now).map (fun m => (m.type, m.status, m.message)) =
      [(c.type, c.status, c.message)] := by
  rw [MergeFrom]
  cases hfind : prev.find? (fun p => p.type == c.type) with
  | none => simp [MergeFrom]
  | some p => by_cases hst : p.status = c.status <;> simp [MergeFrom, hfind, hst]

/-- C9: each merged condition keeps the type, status and message of the new
condition at its position; its transition time is carried forward from the
previous condition of the same type when that condition had the same
status, and is the reconciling instant otherwise (previous conditions
keyed by type, per the data model). -/
theorem merge_transition_times (newConds prevConds : List Condition) (now : Nat)
    (huniq : ∀ p ∈ prevConds, ∀ q ∈ prevConds, p.type = q.type → p = q)
    (i : Nat) (c : Condition) (hc : newConds[i]? = some c) :
    ∃ m, (MergeFrom newConds prevConds now)[i]? = some m ∧
      m.type = c.type ∧ m.status = c.status ∧ m.message = c.message ∧
      ((∃ p ∈ prevConds, p.type = c.type ∧ p.status = c.status ∧
          m.lastTransitionTime = p.lastTransitionTime) ∨
       ((¬ ∃ p ∈ prevConds, p.type = c.type ∧ p.status = c.status) ∧
          m.lastTransitionTime = now)) := by
  induction newConds generalizing i with
  | nil => simp at hc
  | cons c0 rest ih =>
      cases i with
      | zero =>
          rw [List.getElem?_cons_zero] at hc
          injection hc with hc
          subst hc
          rw [MergeFrom]
          cases hfind : prevConds.find? (fun p => p.type == c0.type) with
          | none =>
              refine ⟨{ c0 with lastTransitionTime := now }, by simp, rfl, rfl, rfl,
                Or.inr ⟨?_, rfl⟩⟩
              rintro ⟨p, hp, hty, _⟩
              have := List.find?_eq_none.mp hfind p hp
              simp [hty] at this
          | some p =>
              have hpmem := List.mem_of_find?_eq_some hfind
              have hpty : p.type = c0.type := by
                have := List.find?_some hfind
                simpa using this
              by_cases hst : p.status = c0.status
              · refine ⟨{ c0 with lastTransitionTime := p.lastTransitionTime }, ?_, rfl, rfl, rfl,
                  Or.inl ⟨p, hpmem, hpty, hst, rfl⟩⟩
                simp [hst]
              · refine ⟨{ c0 with lastTransitionTime := now }, ?_, rfl, rfl, rfl,
                  Or.inr ⟨?_, rfl⟩⟩
                · simp [hst]
                · rintro ⟨q, hq, hqty, hqst⟩
                  have hqp : q = p := huniq q hq p hpmem (by rw [hqty, hpty])
                  rw [hqp] at hqst
                  exact hst hqst
      | succ n =>
          rw [List.getElem?_cons_succ] at hc
          rw [MergeFrom]
          have := ih n hc
          simpa [List.getElem?_cons_succ] using this

/-- The spec's own merge scenario: previous `{Verified: False, t0 = 5}`. -/
def prevVerifiedFalse : List Condition := [⟨registrationVerified, .condFalse, 5, ""⟩]

/-- C9 witness: merging a fresh `{Verified: False}` against
`prevVerifiedFalse` carries `t0 = 5` forward, per the theorem, and indeed
evaluates to it; a fresh `{Verified: True}` is restamped to `now = 9`. -/
theorem merge_transition_times_witness :
    (∀ p ∈ prevVerifiedFalse, ∀ q ∈ prevVerifiedFalse, p.type = q.type → p = q) ∧
    ([(⟨registrationVerified, .condFalse, 0, ""⟩ : Condition)][0]? =
      some ⟨registrationVerified, .condFalse, 0, ""⟩) ∧
    (∃ m, (MergeFrom [⟨registrationVerified, .condFalse, 0, ""⟩] prevVerifiedFalse 9)[0]? = some m ∧
      m.type = registrationVerified ∧ m.status = .condFalse ∧ m.message = "" ∧
      ((∃ p ∈ prevVerifiedFalse, p.type = registrationVerified ∧ p.status = .condFalse ∧
          m.lastTransitionTime = p.lastTransitionTime) ∨
       ((¬ ∃ p ∈ prevVerifiedFalse, p.type = registrationVerified ∧ p.status = .condFalse) ∧
          m.lastTransitionTime = 9))) ∧
    MergeFrom [⟨registrationVerified, .condFalse, 0, ""⟩] prevVerifiedFalse 9 =
      [⟨registrationVerified, .condFalse, 5, ""⟩] ∧
    MergeFrom [⟨registrationVerified, .condTrue, 0, ""⟩] prevVerifiedFalse 9 =
      [⟨registrationVerified, .condTrue, 9, ""⟩] :=
  ⟨by decide, by decide,
    merge_transition_times [⟨registrationVerified, .condFalse, 0, ""⟩] prevVerifiedFalse 9
      (by decide) 0 ⟨registrationVerified, .condFalse, 0, ""⟩ (by decide),
    by decide, by decide⟩

/-! ### C4: register against a missing domain -/

/-- The claim's registration `r1`: namespace `ns`, name `acme`, UID `u1`. -/
def regC4 : Registration :=
  { apiVersion := "domain.skygear.io/v1beta1"
    kind := "CustomDomainRegistration"
    name := "acme"
    ns := "ns"
    uid := "u1"
    deletionTimestamp := none
    finalizers := [domainFinalizer]
    status := ⟨[], []⟩ }

/-- C4 counterexample: for the claim's registration `r1` (namespace `ns`,
name `acme`, UID `u1`) with no stored domain, `registerDomain` creates a
domain named `acme` — the registration's own name — and no domain named
`acme.example` exists afterwards: the code derives the hostname from the
registration's name, so `r1` cannot target `acme.example`. -/
theorem register_creates_domain_counterexample :
    registerDomain ⟨false, false, none⟩ regC4 [] =
      (.ok (), [⟨"acme", [refOf regC4], none, []⟩]) ∧
    getDomain (registerDomain ⟨false, false, none⟩ regC4 []).2 "acme.example" = none :=
  ⟨by rfl, by rfl⟩

/-- C4 (amended): the hostname a registration targets is its own name; when
no domain of that name exists, a fault-free `registerDomain` creates one
whose `spec.registrations` is exactly the single reference of the
registration. -/
theorem register_creates_domain (reg : Registration) (ds : List CustomDomain)
    (hget : getDomain ds reg.name = none) :
    registerDomain ⟨false, false, none⟩ reg ds =
      (.ok (), ds ++ [⟨reg.name, [refOf reg], none, []⟩]) := by
  simp [registerDomain, hget, createDomain]

/-- C4 witness: a registration named `acme.example` (namespace `ns`, UID
`u1`) against an empty store yields exactly the domain `acme.example` with
the single reference `{ns, acme.example, u1}`. -/
theorem register_creates_domain_witness :
    getDomain [] sampleReg.name = none ∧
    registerDomain ⟨false, false, none⟩ sampleReg [] =
      (.ok (), [⟨"acme.example",
        [⟨"domain.skygear.io/v1beta1", "CustomDomainRegistration", "acme.example", "ns", "u1"⟩],
        none, []⟩]) :=
  ⟨by decide, register_creates_domain sampleReg [] (by decide)⟩

/-! ### C1: a rejected conditional patch during register -/

/-- A live state whose domain exists but does not reference `sampleReg`. -/
def stLive : State := ⟨sampleReg, [domOther]⟩

/-- Faults rejecting the register patch with a concurrent-modification
conflict. -/
def fConflict : Faults := { noFaults with registerPatchFault := some .conflict }

/-- C1 counterexample: when the conditional patch is rejected by a
concurrent modification, the pass *fails* with that error — `registerDomain`
performs no in-pass retry and the reconcile returns the conflict instead of
a completed registration. -/
theorem register_conflict_counterexample :
    reconcile tokCat nameOk fConflict 7 stLive = (.error .conflict, stLive) := by
  rfl

/-- C1 (amended): a patch rejection during register propagates as the
pass's error: the pass aborts, persisting no status and leaving the stored
domain exactly as the concurrent writer left it (no stale overwrite); the
retry happens through redelivery — a later fault-free pass re-reads the
then-current domain and appends the reference to *its* registration list. -/
theorem register_conflict_aborts_pass
    (tokGen : String → String → String) (mkName : String → Option String)
    (f : Faults) (now : Nat) (st : State) (d : CustomDomain) (e : Err)
    (hdel : st.reg.deletionTimestamp = none)
    (hinit : f.initGetFault = false)
    (hfin : st.reg.finalizers.contains domainFinalizer = true)
    (hgf : f.registerGetFault = false)
    (hget : getDomain st.domains st.reg.name = some d)
    (hmem : ContainsObjectReference d.registrations st.reg = false)
    (hpf : f.registerPatchFault = some e) :
    reconcile tokGen mkName f now st = (.error e, st) ∧
    (∀ (ds2 : List CustomDomain) (d2 : CustomDomain),
      getDomain ds2 st.reg.name = some d2 →
      ContainsObjectReference d2.registrations st.reg = false →
      registerDomain ⟨false, false, none⟩ st.reg ds2 =
        (.ok (), putDomain ds2 { d2 with registrations := d2.registrations ++ [refOf st.reg] })) := by
  constructor
  · rw [reconcile]
    simp only [hinit, Bool.false_eq_true, if_false, hdel]
    rw [finalizerEnsure]
    simp only [hfin, if_true]
    rw [registerDomain]
    simp only [hgf, Bool.false_eq_true, if_false, hget, hmem, hpf]
  · intro ds2 d2 hget2 hmem2
    simp [registerDomain, hget2, hmem2]

/-- C1 witness: over `stLive` the conflict-rejected pass aborts unchanged,
and the fault-free retry against the fresh store appends `sampleReg`'s
reference to the current list. -/
theorem register_conflict_aborts_pass_witness :
    stLive.reg.deletionTimestamp = none ∧
    getDomain stLive.domains stLive.reg.name = some domOther ∧
    ContainsObjectReference domOther.registrations stLive.reg = false ∧
    reconcile tokCat nameOk fConflict 11 stLive = (.error .conflict, stLive) ∧
    registerDomain ⟨false, false, none⟩ stLive.reg [domOther] =
      (.ok (), putDomain [domOther] { domOther with
        registrations := domOther.registrations ++ [refOf stLive.reg] }) := by
  have h := register_conflict_aborts_pass tokCat nameOk fConflict 11 stLive domOther .conflict
    (by decide) (by decide) (by decide) (by decide) (by decide) (by decide) (by decide)
  exact ⟨by decide, by decide, by decide, h.1, h.2 [domOther] domOther (by decide) (by decide)⟩

/-! ### C3: which store failures abort the pass -/

/-- C3 counterexample: a store read failure inside unregister does *not*
abort the pass — the reconcile returns without error and a status update
*is* persisted (`Accepted = Unknown` with the store-error message replaces
the previously empty condition set). -/
theorem store_error_no_abort_counterexample :
    stDel.reg.status.conditions = [] ∧
    reconcile tokCat nameOk fUnregGet 7 stDel =
      (.ok false,
        ⟨{ sampleRegDel with status :=
            ⟨[⟨registrationAccepted, .condUnknown, 7, errMessage .storeError⟩], []⟩ },
          [domWithSample]⟩) :=
  ⟨by rfl, by rfl⟩

/-- C3 (amended): a store failure at the initial registration read, the
finalizer-ensure write, any step of register, or the status write itself
aborts the pass with that error and persists no status update to the
registration; a store failure inside unregister or verify is instead
recorded as an `Unknown` condition (`Accepted` resp. `Verified`) carrying
the error message, with the status persisted and the pass completing
without error; and a failure of the final finalizer-removal write aborts
the pass only after the status has already been persisted. -/
theorem store_failure_semantics (tokGen : String → String → String)
    (mkName : String → Option String) (now : Nat) :
    (∀ (f : Faults) (st : State), f.initGetFault = true →
      reconcile tokGen mkName f now st = (.error .storeError, st)) ∧
    (∀ (f : Faults) (st : State), f.initGetFault = false → f.ensureFault = true →
      st.reg.deletionTimestamp = none →
      st.reg.finalizers.contains domainFinalizer = false →
      reconcile tokGen mkName f now st = (.error .storeError, st)) ∧
    (∀ (f : Faults) (st : State), f.initGetFault = false →
      st.reg.deletionTimestamp = none →
      st.reg.finalizers.contains domainFinalizer = true →
      f.registerGetFault = true →
      reconcile tokGen mkName f now st = (.error .storeError, st)) ∧
    (∀ (f : Faults) (st : State), f.initGetFault = false →
      st.reg.deletionTimestamp = none →
      st.reg.finalizers.contains domainFinalizer = true →
      f.registerGetFault = false → f.createFault = true →
      getDomain st.domains st.reg.name = none →
      reconcile tokGen mkName f now st = (.error .storeError, st)) ∧
    (∀ (f : Faults) (st : State) (d : CustomDomain), f.initGetFault = false →
      st.reg.deletionTimestamp = none →
      st.reg.finalizers.contains domainFinalizer = true →
      f.registerGetFault = false → f.registerPatchFault = some .storeError →
      getDomain st.domains st.reg.name = some d →
      ContainsObjectReference d.registrations st.reg = false →
      reconcile tokGen mkName f now st = (.error .storeError, st)) ∧
    (∀ (f : Faults) (st : State) (t : Nat), f.initGetFault = false →
      st.reg.deletionTimestamp = some t →
      f.unregisterGetFault = false → f.unregisterPatchFault = none →
      f.statusUpdateFault = true →
      (reconcile tokGen mkName f now st).1 = .error .storeError ∧
      (reconcile tokGen mkName f now st).2.reg = st.reg) ∧
    (∀ (f : Faults) (st : State) (t : Nat), f.initGetFault = false →
      st.reg.deletionTimestamp = some t →
      f.unregisterGetFault = true → f.statusUpdateFault = false →
      (reconcile tokGen mkName f now st).1 = .ok false ∧
      (reconcile tokGen mkName f now st).2.reg.status.conditions.map
          (fun c => (c.type, c.status, c.message)) =
        [(registrationAccepted, ConditionStatus.condUnknown, errMessage .storeError)]) ∧
    (∀ (f : Faults) (st : State), f.initGetFault = false →
      st.reg.deletionTimestamp = none →
      st.reg.finalizers.contains domainFinalizer = true →
      f.registerGetFault = false → f.createFault = false →
      f.registerPatchFault = none →
      f.verifyGetFault = true → f.statusUpdateFault = false →
      (reconcile tokGen mkName f now st).1 = .ok false ∧
      (reconcile tokGen mkName f now st).2.reg.status.conditions.map
          (fun c => (c.type, c.status, c.message)) =
        [(registrationVerified, ConditionStatus.condUnknown, errMessage .storeError)]) ∧
    (∀ (f : Faults) (st : State) (t : Nat), f.initGetFault = false →
      st.reg.deletionTimestamp = some t →
      f.unregisterGetFault = false → f.unregisterPatchFault = none →
      f.statusUpdateFault = false → f.removeFault = true →
      (reconcile tokGen mkName f now st).1 = .error .storeError ∧
      (reconcile tokGen mkName f now st).2.reg.status.conditions.map
          (fun c => (c.type, c.status, c.message)) =
        [(registrationAccepted, ConditionStatus.condFalse, "")]) ∧
    (∀ (f : Faults) (st : State), f.initGetFault = false →
      st.reg.deletionTimestamp = none →
      st.reg.finalizers.contains domainFinalizer = true →
      f.registerGetFault = false → f.createFault = false →
      f.registerPatchFault = none → f.statusUpdateFault = true →
      (reconcile tokGen mkName f now st).1 = .error .storeError ∧
      (reconcile tokGen mkName f now st).2.reg = st.reg) ∧
    (∀ (f : Faults) (st : State) (t : Nat) (d : CustomDomain),
      f.initGetFault = false →
      st.reg.deletionTimestamp = some t →
      f.unregisterGetFault = false →
      f.unregisterPatchFault = some .storeError →
      getDomain st.domains st.reg.name = some d →
      ContainsObjectReference d.registrations st.reg = true →
      f.statusUpdateFault = false →
      (reconcile tokGen mkName f now st).1 = .ok false ∧
      (reconcile tokGen mkName f now st).2.reg.status.conditions.map
          (fun c => (c.type, c.status, c.message)) =
        [(registrationAccepted, ConditionStatus.condUnknown, errMessage .storeError)]) := by
  refine ⟨?_, ?_, ?_, ?_, ?_, ?_, ?_, ?_, ?_, ?_, ?_⟩
  · intro f st hinit
    rw [reconcile]
    simp [hinit]
  · intro f st hinit hens hdel hfin
    rw [reconcile]
    simp only [hinit, Bool.false_eq_true, if_false, hdel]
    rw [finalizerEnsure]
    simp only [hfin, Bool.false_eq_true, if_false, hens, if_true]
  · intro f st hinit hdel hfin hrg
    rw [reconcile]
    simp only [hinit, Bool.false_eq_true, if_false, hdel]
    rw [finalizerEnsure]
    simp only [hfin, if_true]
    rw [registerDomain]
    simp [hrg]
  · intro f st hinit hdel hfin hrg hcf hget
    rw [reconcile]
    simp only [hinit, Bool.false_eq_true, if_false, hdel]
    rw [finalizerEnsure]
    simp only [hfin, if_true]
    rw [registerDomain]
    simp [hrg, hget, hcf]
  · intro f st d hinit hdel hfin hrg hpf hget hmem
    rw [reconcile]
    simp only [hinit, Bool.false_eq_true, if_false, hdel]
    rw [finalizerEnsure]
    simp only [hfin, if_true]
    rw [registerDomain]
    simp [hrg, hget, hmem, hpf]
  · intro f st t hinit hdel hug hup hsu
    obtain ⟨ds', hun⟩ := unregisterDomain_noFaults_ok st.reg st.domains
    have hrec : reconcile tokGen mkName f now st =
        (.error .storeError, ⟨st.reg, ds'⟩) := by
      rw [reconcile]
      simp only [hinit, Bool.false_eq_true, if_false, hdel, hug, hup, hun]
      rw [finishPass]
      simp [hsu]
    rw [hrec]
    exact ⟨rfl, rfl⟩
  · intro f st t hinit hdel hug hsu
    have hrec : reconcile tokGen mkName f now st =
        (.ok false,
          ⟨{ st.reg with
              status := { st.reg.status with
                conditions := MergeFrom
                  [⟨registrationAccepted, .condUnknown, 0, errMessage .storeError⟩]
                  st.reg.status.conditions now } },
            st.domains⟩) := by
      rw [reconcile]
      simp only [hinit, Bool.false_eq_true, if_false, hdel]
      rw [unregisterDomain]
      simp only [hug, if_true]
      rw [finishPass]
      simp [hsu, hdel]
    rw [hrec]
    refine ⟨rfl, ?_⟩
    simpa using mergeFrom_single_map
      ⟨registrationAccepted, .condUnknown, 0, errMessage .storeError⟩
      st.reg.status.conditions now
  · intro f st hinit hdel hfin hrg hcf hpf hvg hsu
    obtain ⟨ds', hreg⟩ := registerDomain_noFaults_ok st.reg st.domains
    have hrec : reconcile tokGen mkName f now st =
        (.ok false,
          ⟨{ st.reg with
              status := { st.reg.status with
                conditions := MergeFrom
                  [⟨registrationVerified, .condUnknown, 0, errMessage .storeError⟩]
                  st.reg.status.conditions now } },
            ds'⟩) := by
      rw [reconcile]
      simp only [hinit, Bool.false_eq_true, if_false, hdel]
      rw [finalizerEnsure]
      simp only [hfin, if_true]
      simp only [hrg, hcf, hpf, hreg]
      rw [verifyDomainIfNeeded]
      simp only [hvg, if_true]
      rw [finishPass]
      simp [hsu, hdel]
    rw [hrec]
    refine ⟨rfl, ?_⟩
    simpa using mergeFrom_single_map
      ⟨registrationVerified, .condUnknown, 0, errMessage .storeError⟩
      st.reg.status.conditions now
  · intro f st t hinit hdel hug hup hsu hrm
    obtain ⟨ds', hun⟩ := unregisterDomain_noFaults_ok st.reg st.domains
    have hrec : reconcile tokGen mkName f now st =
        (.error .storeError,
          ⟨{ st.reg with
              status := { st.reg.status with
                conditions := MergeFrom
                  [⟨registrationAccepted, ToStatus false, 0, ""⟩]
                  st.reg.status.conditions now } },
            ds'⟩) := by
      rw [reconcile]
      simp only [hinit, Bool.false_eq_true, if_false, hdel, hug, hup, hun]
      rw [finishPass]
      simp only [hsu, Bool.false_eq_true, if_false, Bool.not_false, if_true]
      rw [finalizerRemove]
      simp [hrm, hdel]
    rw [hrec]
    refine ⟨rfl, ?_⟩
    simpa [ToStatus] using mergeFrom_single_map
      ⟨registrationAccepted, ToStatus false, 0, ""⟩
      st.reg.status.conditions now
  · intro f st hinit hdel hfin hrg hcf hpf hsu
    obtain ⟨ds', hreg⟩ := registerDomain_noFaults_ok st.reg st.domains
    rw [reconcile]
    simp only [hinit, Bool.false_eq_true, if_false, hdel]
    rw [finalizerEnsure]
    simp only [hfin, if_true]
    simp only [hrg, hcf, hpf, hreg]
    cases hv : verifyDomainIfNeeded tokGen mkName f.verifyGetFault ds' st.reg with
    | error e => simp [finishPass, hsu]
    | ok p =>
        obtain ⟨v, reg2⟩ := p
        simp [finishPass, hsu]
  · intro f st t d hinit hdel hug hup hget hmem hsu
    have hrec : reconcile tokGen mkName f now st =
        (.ok false,
          ⟨{ st.reg with
              status := { st.reg.status with
                conditions := MergeFrom
                  [⟨registrationAccepted, .condUnknown, 0, errMessage .storeError⟩]
                  st.reg.status.conditions now } },
            st.domains⟩) := by
      rw [reconcile]
      simp only [hinit, Bool.false_eq_true, if_false, hdel]
      rw [unregisterDomain]
      simp only [hug, Bool.false_eq_true, if_false, hget, hmem, if_true, hup]
      rw [finishPass]
      simp [hsu, hdel]
    rw [hrec]
    refine ⟨rfl, ?_⟩
    simpa using mergeFrom_single_map
      ⟨registrationAccepted, .condUnknown, 0, errMessage .storeError⟩
      st.reg.status.conditions now

/-- C3 witness: over `stDel` with the unregister read failing, the pass
ends without error and persists `Accepted = Unknown` — the non-aborting
exception of the amended claim, by the theorem. -/
theorem store_failure_semantics_witness :
    fUnregGet.initGetFault = false ∧
    stDel.reg.deletionTimestamp = some 3 ∧
    fUnregGet.unregisterGetFault = true ∧
    fUnregGet.statusUpdateFault = false ∧
    ((reconcile tokCat nameOk fUnregGet 7 stDel).1 = .ok false ∧
     (reconcile tokCat nameOk fUnregGet 7 stDel).2.reg.status.conditions.map
        (fun c => (c.type, c.status, c.message)) =
      [(registrationAccepted, ConditionStatus.condUnknown, errMessage .storeError)]) :=
  ⟨by decide, by decide, by decide, by decide,
    (store_failure_semantics tokCat nameOk 7).2.2.2.2.2.2.1 fUnregGet stDel 3
      (by decide) (by decide) (by decide) (by decide)⟩

end DomainController
